import Mathlib

/-!
Verification of the silence trimmer (`src/utils/audioSilenceTrimmer.ts`) and of
the segment-buffer / fuzzy-duplicate logic of the browser-adaptive speech
recognition hook, as a shallow embedding in Lean.

Conventions of the embedding:
* JS `number`s carrying audio samples, thresholds and durations are modelled as
  `ℚ` (the source never relies on float rounding; the one float comparison that
  is not exactly rational, `shorter.length / longer.length > 0.8`, is modelled
  by exact rational arithmetic, which agrees with the float computation on all
  realistic lengths).
* Sample counts and loop indices are modelled as `ℤ`, exactly as JS integers;
  `Math.floor(x)` on a real-valued expression is `⌊x⌋ : ℤ`.
* The source's `computeRMS` returns `Math.sqrt(sumSquares / actualLength)`.
  The embedding keeps the radicand (the mean square, an exact rational) and
  performs every comparison against a threshold `t` on the squared side:
  for the nonnegative thresholds that every theorem below assumes,
  `sqrt m ≥ t ↔ t^2 ≤ m`, `sqrt m < 0.8 * sqrt p ↔ 25*m < 16*p`, and
  `sqrt m > 0.3*t ↔ 9*t^2 < 100*m`; the bridge is proved as part of the
  decrescendo theorem. This keeps every definition executable.
* Loops are embedded as fuel-based recursion. The fuel passed by the wrappers
  (`samples.length + 1`) is enough for every configuration with a positive
  window size (the only configurations on which the source loop terminates at
  all); on configurations with `windowSamples ≤ 0` the JS loop never exits.
-/

-- Batteries seals the `Rat` field operations (`@[irreducible]`); the kernel
-- ignores reducibility, and the concrete witnesses below evaluate rational
-- arithmetic with `decide`, so restore the definitional unfolding.
set_option allowUnsafeReducibility true
attribute [semireducible] Rat.ofScientific Rat.mul Rat.inv Rat.add Rat.sub

/-! ### Data model: blobs, decoded audio, trim configuration -/

/-- The bytes of a binary `Blob` together with its MIME type. -/
structure Blob where
  data : List ℕ
  type : String
deriving DecidableEq

/-- A decoded `AudioBuffer`: per-channel sample data plus the sample rate.
Decoded audio always has at least one channel and equal-length channels;
accessors use a `0`/`[]` default out of range. -/
structure AudioBuffer where
  channels : List (List ℚ)
  sampleRate : ℕ
deriving DecidableEq

def AudioBuffer.numberOfChannels (b : AudioBuffer) : ℕ := b.channels.length

/-- The Web Audio `buffer.length`: the frame count, read off the first
channel's data. -/
def AudioBuffer.frames (b : AudioBuffer) : ℕ := (b.channels.headD []).length

def AudioBuffer.getChannelData (b : AudioBuffer) (ch : ℕ) : List ℚ :=
  b.channels.getD ch []

/-- The `TrimConfig` options object: every option may be omitted (`none`). -/
structure TrimConfig where
  silenceThreshold : Option ℚ := none
  endThresholdMultiplier : Option ℚ := none
  windowSize : Option ℚ := none
  minSilenceDuration : Option ℚ := none
  trimTrailing : Option Bool := none
  maxLeadingTrim : Option ℚ := none
  maxTrailingTrim : Option ℚ := none
  trailingPadding : Option ℚ := none
  minAudioDuration : Option ℚ := none
deriving DecidableEq

/-- The `Required<TrimConfig>` shape: every option present. -/
structure RequiredTrimConfig where
  silenceThreshold : ℚ
  endThresholdMultiplier : ℚ
  windowSize : ℚ
  minSilenceDuration : ℚ
  trimTrailing : Bool
  maxLeadingTrim : ℚ
  maxTrailingTrim : ℚ
  trailingPadding : ℚ
  minAudioDuration : ℚ
deriving DecidableEq

/-- The `DEFAULT_CONFIG` record from the source. -/
def DEFAULT_CONFIG : RequiredTrimConfig where
  silenceThreshold := 0.01
  endThresholdMultiplier := 0.6
  windowSize := 0.05
  minSilenceDuration := 0.2
  trimTrailing := false
  maxLeadingTrim := 3
  maxTrailingTrim := 8
  trailingPadding := 0.35
  minAudioDuration := 1.0

/-- The spread `{ ...DEFAULT_CONFIG, ...config }`: a present option overrides
the default, an omitted one falls back to it. -/
def mergeConfig (config : TrimConfig) : RequiredTrimConfig where
  silenceThreshold := config.silenceThreshold.getD DEFAULT_CONFIG.silenceThreshold
  endThresholdMultiplier :=
    config.endThresholdMultiplier.getD DEFAULT_CONFIG.endThresholdMultiplier
  windowSize := config.windowSize.getD DEFAULT_CONFIG.windowSize
  minSilenceDuration := config.minSilenceDuration.getD DEFAULT_CONFIG.minSilenceDuration
  trimTrailing := config.trimTrailing.getD DEFAULT_CONFIG.trimTrailing
  maxLeadingTrim := config.maxLeadingTrim.getD DEFAULT_CONFIG.maxLeadingTrim
  maxTrailingTrim := config.maxTrailingTrim.getD DEFAULT_CONFIG.maxTrailingTrim
  trailingPadding := config.trailingPadding.getD DEFAULT_CONFIG.trailingPadding
  minAudioDuration := config.minAudioDuration.getD DEFAULT_CONFIG.minAudioDuration

/-! ### RMS analysis -/

/-- The radicand of the source's `computeRMS(samples, start, length)`:
`sumSquares / actualLength` over `samples[start .. min(start+length, samples.length))`,
`0` when the slice is empty. The source returns the square root of this value;
all comparisons below are carried out on this squared side. Call sites always
pass `0 ≤ start`. -/
def computeMeanSq (samples : List ℚ) (start len : ℤ) : ℚ :=
  let endIdx := min (start + len) (samples.length : ℤ)
  let actualLength := endIdx - start
  if actualLength ≤ 0 then 0
  else
    let sumSquares :=
      ((List.range actualLength.toNat).map
        (fun k => let x := samples.getD (start + (k : ℤ)).toNat 0; x * x)).sum
    sumSquares / (actualLength : ℚ)

/-- Comparison `rms >= t` for a mean square `m` and a nonnegative threshold `t`:
`sqrt m ≥ t ↔ t^2 ≤ m`. -/
def rmsGe (m t : ℚ) : Bool := t ^ 2 ≤ m

/-- The source's energy-slope (decrescendo) test
`previousRMS > 0 && rms > 0 && rms < previousRMS * 0.8 && rms > endThreshold * 0.3`,
on the squared side (`m`, `prevM` are mean squares; valid for a nonnegative
`endThreshold`): `rms < prev*0.8 ↔ 25*m < 16*prevM` and
`rms > endThr*0.3 ↔ 9*endThr^2 < 100*m`. -/
def isDecrescendo (prevM m endThreshold : ℚ) : Bool :=
  0 < prevM && 0 < m && 25 * m < 16 * prevM && 9 * endThreshold ^ 2 < 100 * m

/-! ### findSpeechStart -/

/-- The scan loop of `findSpeechStart`, with explicit fuel. The loop runs while
`i < samples.length && i < maxTrimSamples`; exiting the loop (or exhausting the
fuel, which cannot happen with fuel `samples.length + 1` when
`1 ≤ windowSamples`) yields the after-loop result. -/
def findSpeechStartGo (samples : List ℚ) (silenceThreshold : ℚ)
    (windowSamples maxTrimSamples minSilenceSamples : ℤ) :
    ℕ → ℤ → ℤ → ℤ
  | 0, _, silentSamples =>
    if minSilenceSamples ≤ silentSamples then min silentSamples maxTrimSamples else 0
  | fuel + 1, i, silentSamples =>
    if i < (samples.length : ℤ) ∧ i < maxTrimSamples then
      let rms := computeMeanSq samples i windowSamples
      if rmsGe rms silenceThreshold then
        if minSilenceSamples ≤ silentSamples then
          max 0 (i - ⌊(windowSamples : ℚ) / 2⌋)
        else 0
      else
        findSpeechStartGo samples silenceThreshold windowSamples maxTrimSamples
          minSilenceSamples fuel (i + windowSamples) (silentSamples + windowSamples)
    else
      if minSilenceSamples ≤ silentSamples then min silentSamples maxTrimSamples else 0

/-- Function `findSpeechStart` from the source. -/
def findSpeechStart (samples : List ℚ) (sampleRate : ℕ) (config : RequiredTrimConfig) : ℤ :=
  let windowSamples := ⌊(sampleRate : ℚ) * config.windowSize⌋
  let maxTrimSamples := ⌊(sampleRate : ℚ) * config.maxLeadingTrim⌋
  let minSilenceSamples := ⌊(sampleRate : ℚ) * config.minSilenceDuration⌋
  findSpeechStartGo samples config.silenceThreshold windowSamples maxTrimSamples
    minSilenceSamples (samples.length + 1) 0 0

/-! ### findSpeechEnd -/

/-- The backward scan loop of `findSpeechEnd`, with explicit fuel. The loop
runs while `i >= 0`; its body first checks the accumulated-silence cap, then
the (lower) end threshold together with the decrescendo exception. -/
def findSpeechEndGo (samples : List ℚ) (endThreshold : ℚ)
    (windowSamples minSilenceSamples maxTrailingTrimSamples trailingPaddingSamples : ℤ) :
    ℕ → ℤ → ℤ → ℚ → ℤ
  | 0, _, _, _ => (samples.length : ℤ)
  | fuel + 1, i, silentSamples, previousRMS =>
    if 0 ≤ i then
      if maxTrailingTrimSamples < silentSamples then (samples.length : ℤ)
      else
        let rms := computeMeanSq samples i windowSamples
        if rmsGe rms endThreshold || isDecrescendo previousRMS rms endThreshold then
          if minSilenceSamples ≤ silentSamples then
            min (samples.length : ℤ) (i + windowSamples + trailingPaddingSamples)
          else (samples.length : ℤ)
        else
          findSpeechEndGo samples endThreshold windowSamples minSilenceSamples
            maxTrailingTrimSamples trailingPaddingSamples fuel
            (i - windowSamples) (silentSamples + windowSamples) rms
    else (samples.length : ℤ)

/-- Function `findSpeechEnd` from the source; the end threshold is
`silenceThreshold * endThresholdMultiplier`. -/
def findSpeechEnd (samples : List ℚ) (sampleRate : ℕ) (config : RequiredTrimConfig) : ℤ :=
  let windowSamples := ⌊(sampleRate : ℚ) * config.windowSize⌋
  let minSilenceSamples := ⌊(sampleRate : ℚ) * config.minSilenceDuration⌋
  let maxTrailingTrimSamples := ⌊(sampleRate : ℚ) * config.maxTrailingTrim⌋
  let trailingPaddingSamples := ⌊(sampleRate : ℚ) * config.trailingPadding⌋
  let endThreshold := config.silenceThreshold * config.endThresholdMultiplier
  findSpeechEndGo samples endThreshold windowSamples minSilenceSamples
    maxTrailingTrimSamples trailingPaddingSamples (samples.length + 1)
    ((samples.length : ℤ) - windowSamples) 0 0

/-! ### WAV encoding -/

/-- Two little-endian bytes of a 16-bit store (`DataView.setUint16(…, true)`). -/
def u16le (n : ℕ) : List ℕ := [n % 256, n / 256 % 256]

/-- Four little-endian bytes of a 32-bit store (`DataView.setUint32(…, true)`). -/
def u32le (n : ℕ) : List ℕ :=
  [n % 256, n / 256 % 256, n / 65536 % 256, n / 16777216 % 256]

/-- Truncation toward zero, as JS `ToInt16` applies to the scaled sample. -/
def truncToInt (q : ℚ) : ℤ := if q < 0 then -⌊-q⌋ else ⌊q⌋

/-- One sample of the WAV body: clamp to `[-1, 1]`, scale by `0x8000` when
negative and by `0x7fff` otherwise, truncate to an integer. -/
def encodeSample (x : ℚ) : ℤ :=
  let sample := max (-1) (min 1 x)
  truncToInt (if sample < 0 then sample * 0x8000 else sample * 0x7fff)

/-- Store `setInt16(…, true)`: the encoded sample reduced mod 2^16, little-endian. -/
def int16Bytes (v : ℤ) : List ℕ := u16le (Int.emod v 65536).toNat

/-- Function `audioBufferToWav` from the source: the 44-byte canonical WAV header
(field writes are contiguous, offsets 0–43) followed by the interleaved
16-bit samples. -/
def audioBufferToWav (buffer : AudioBuffer) : Blob :=
  let numChannels := buffer.numberOfChannels
  let sampleRate := buffer.sampleRate
  let bytesPerSample := 2
  let blockAlign := numChannels * bytesPerSample
  let byteRate := sampleRate * blockAlign
  let dataLength := buffer.frames * blockAlign
  let totalLength := 44 + dataLength
  -- 'RIFF', chunk size, 'WAVE', 'fmt ', subchunk size 16, PCM tag 1,
  -- channels, sample rate, byte rate, block align, bits 16, 'data', data size
  let header :=
    [82, 73, 70, 70] ++ u32le (totalLength - 8) ++ [87, 65, 86, 69] ++
    [102, 109, 116, 32] ++ u32le 16 ++ u16le 1 ++ u16le numChannels ++
    u32le sampleRate ++ u32le byteRate ++ u16le blockAlign ++ u16le 16 ++
    [100, 97, 116, 97] ++ u32le dataLength
  let channels := (List.range numChannels).map (fun ch => buffer.getChannelData ch)
  let body := (List.range buffer.frames).flatMap
    (fun i => (channels.map (fun c => int16Bytes (encodeSample (c.getD i 0)))).flatten)
  ⟨header ++ body, "audio/wav"⟩

/-- Little-endian 16-bit read from a byte list, for stating header facts. -/
def readU16LE (bytes : List ℕ) (off : ℕ) : ℕ :=
  bytes.getD off 0 + 256 * bytes.getD (off + 1) 0

/-- Little-endian 32-bit read from a byte list, for stating header facts. -/
def readU32LE (bytes : List ℕ) (off : ℕ) : ℕ :=
  bytes.getD off 0 + 256 * bytes.getD (off + 1) 0 +
    65536 * bytes.getD (off + 2) 0 + 16777216 * bytes.getD (off + 3) 0

/-! ### trimSilence -/

/-- The result record `{ blob, trimmedLeadingMs, trimmedTrailingMs }`. -/
structure TrimResult where
  blob : Blob
  trimmedLeadingMs : ℤ
  trimmedTrailingMs : ℤ
deriving DecidableEq

/-- Rounding as `Math.round`: round half toward positive infinity. -/
def jsRound (q : ℚ) : ℤ := ⌊q + 1 / 2⌋

/-- The mono downmix of the decoded buffer: channel 0 when mono, otherwise the
pointwise average of channels 0 and 1 over channel 0's length. -/
def monoSamples (audioBuffer : AudioBuffer) : List ℚ :=
  if audioBuffer.numberOfChannels == 1 then audioBuffer.getChannelData 0
  else
    let left := audioBuffer.getChannelData 0
    let right := audioBuffer.getChannelData 1
    (List.range left.length).map (fun i => (left.getD i 0 + right.getD i 0) / 2)

/-- The body of `trimSilence`'s `try` block after a successful decode.
`Except.error` marks the one remaining throwing operation,
`audioContext.createBuffer` on a nonpositive frame count; the caller's catch
turns it into the no-op passthrough. -/
def trimSilenceCore (audioBlob : Blob) (audioBuffer : AudioBuffer)
    (cfg : RequiredTrimConfig) : Except Unit TrimResult :=
  let samples := monoSamples audioBuffer
  let sampleRate := audioBuffer.sampleRate
  let speechStart := findSpeechStart samples sampleRate cfg
  let speechEnd :=
    if cfg.trimTrailing then findSpeechEnd samples sampleRate cfg
    else (samples.length : ℤ)
  let minSamples := ⌊(sampleRate : ℚ) * cfg.minAudioDuration⌋
  let trimmedSamples := speechEnd - speechStart
  if trimmedSamples < minSamples then Except.ok ⟨audioBlob, 0, 0⟩
  else if speechStart = 0 ∧ speechEnd = (samples.length : ℤ) then
    Except.ok ⟨audioBlob, 0, 0⟩
  else
    let trimmedLeadingMs := jsRound ((speechStart : ℚ) / (sampleRate : ℚ) * 1000)
    let trimmedTrailingMs :=
      max 0 (jsRound ((((samples.length : ℤ) - speechEnd : ℤ) : ℚ) / (sampleRate : ℚ) * 1000))
    if trimmedSamples ≤ 0 then Except.error ()
    else
      let trimmedBuffer : AudioBuffer :=
        ⟨audioBuffer.channels.map
          (fun original =>
            (List.range trimmedSamples.toNat).map
              (fun i => original.getD (speechStart + (i : ℤ)).toNat 0)),
         sampleRate⟩
      Except.ok ⟨audioBufferToWav trimmedBuffer, trimmedLeadingMs, trimmedTrailingMs⟩

/-- Function `trimSilence`. Decoding happens in the environment: `decoded` is the
result of `decodeAudioData` on `audioBlob` (`none` when decoding rejects).
Every failure — of the decode or of the processing — is caught and degrades
to the original blob with zero reported trim. -/
def trimSilence (audioBlob : Blob) (decoded : Option AudioBuffer)
    (config : TrimConfig) : TrimResult :=
  let cfg := mergeConfig config
  match decoded with
  | none => ⟨audioBlob, 0, 0⟩
  | some audioBuffer =>
    match trimSilenceCore audioBlob audioBuffer cfg with
    | Except.ok r => r
    | Except.error _ => ⟨audioBlob, 0, 0⟩

/-- Function `trimLeadingSilence`: `trimSilence` with `trimTrailing` forced off,
returning `{ blob, trimmedMs }`. -/
def trimLeadingSilence (audioBlob : Blob) (decoded : Option AudioBuffer)
    (config : TrimConfig) : Blob × ℤ :=
  let r := trimSilence audioBlob decoded { config with trimTrailing := some false }
  (r.blob, r.trimmedLeadingMs)

/-! ### Text similarity (speech recognition hook) -/

/-- JS string `trim` on a character list: drop whitespace from both ends. -/
def jsTrimChars (cs : List Char) : List Char :=
  ((cs.dropWhile Char.isWhitespace).reverse.dropWhile Char.isWhitespace).reverse

/-- JS `String.prototype.trim`. -/
def jsTrimStr (s : String) : String := String.mk (jsTrimChars s.data)

/-- The punctuation set stripped by `normalizeForComparison`:
`[.,!?;:'"]` (the last two written by code point). -/
def strippedPunct : List Char :=
  ['.', ',', '!', '?', ';', ':', Char.ofNat 39, Char.ofNat 34]

/-- The substitution `replace(/\s+/g, ' ')`: collapse every whitespace run to a single space.
The flag records whether the previous character belonged to a run. -/
def collapseWsGo : Bool → List Char → List Char
  | _, [] => []
  | prevWs, c :: rest =>
    if c.isWhitespace then
      if prevWs then collapseWsGo true rest else ' ' :: collapseWsGo true rest
    else c :: collapseWsGo false rest

/-- Function `normalizeForComparison`: lowercase, trim, strip the punctuation set,
collapse internal whitespace runs. -/
def normalizeForComparison (text : String) : String :=
  let lowered := text.data.map Char.toLower
  let trimmed := jsTrimChars lowered
  let noPunct := trimmed.filter (fun c => !(strippedPunct.contains c))
  String.mk (collapseWsGo false noPunct)

/-- Splitter on a single space character, as JS `split(' ')` (and Lean's
`String.splitOn " "`) behaves: empty pieces between adjacent separators are
kept, the empty string yields `[""]`. Structural, so that concrete witnesses
evaluate in the kernel. -/
def splitOnSpaceGo : List Char → List Char → List (List Char)
  | acc, [] => [acc.reverse]
  | acc, c :: rest =>
    if c = ' ' then acc.reverse :: splitOnSpaceGo [] rest
    else splitOnSpaceGo (c :: acc) rest

/-- JS `s.split(' ')`. -/
def jsSplitOnSpace (s : String) : List String :=
  (splitOnSpaceGo [] s.data).map String.mk

/-- Splitter on single whitespace characters; composed with the nonempty
filter below this is JS `split(/\s+/).filter(w => w.length > 0)`. -/
def splitWsGo : List Char → List Char → List (List Char)
  | acc, [] => [acc.reverse]
  | acc, c :: rest =>
    if c.isWhitespace then acc.reverse :: splitWsGo [] rest
    else splitWsGo (c :: acc) rest

/-- JS `haystack.includes(needle)`: substring containment. -/
def jsIncludes (hay needle : List Char) : Bool :=
  match hay with
  | [] => needle.isPrefixOf ([] : List Char)
  | c :: t => needle.isPrefixOf (c :: t) || jsIncludes t needle

/-- Function `areSimilarTexts` (the fuzzy-duplicate predicate): equal after
normalization, or one normalized string contains the other and the shorter
is more than 80% of the longer's length. -/
def areSimilarTexts (text1 text2 : String) : Bool :=
  let norm1 := normalizeForComparison text1
  let norm2 := normalizeForComparison text2
  if norm1 = norm2 then true
  else if jsIncludes norm1.data norm2.data || jsIncludes norm2.data norm1.data then
    let shorter := if norm1.length < norm2.length then norm1 else norm2
    let longer := if norm1.length < norm2.length then norm2 else norm1
    decide ((shorter.length : ℚ) / (longer.length : ℚ) > 0.8)
  else false

/-- The candidate-length loop of `getOverlapWithLastSegment`: `i` runs from 1
while `i ≤ min 5 (newWords.length - 1)` (the fuel is that iteration count);
a match whose remainder trims to the empty string is skipped, as in the
source, rather than ending the loop. -/
def getOverlapLoop (newWords : List String) (lastWords : List Char) :
    ℕ → ℕ → Option String
  | _, 0 => none
  | i, fuel + 1 =>
    let pfx := String.intercalate " " (newWords.take i)
    if jsIncludes lastWords pfx.data ||
        jsIncludes pfx.data (lastWords.drop (lastWords.length - pfx.length)) then
      let trimmed := jsTrimStr (String.intercalate " " (newWords.drop i))
      if trimmed.length > 0 then some trimmed
      else getOverlapLoop newWords lastWords (i + 1) fuel
    else getOverlapLoop newWords lastWords (i + 1) fuel

/-- Function `getOverlapWithLastSegment`: detect and trim a ≤5-word overlap between the
head of `newText` and the tail of `lastSegment`. -/
def getOverlapWithLastSegment (newText lastSegment : String) : Bool × String :=
  if lastSegment.isEmpty || newText.isEmpty then (false, newText)
  else
    let normNew := normalizeForComparison newText
    let normLast := normalizeForComparison lastSegment
    let lastSplit := jsSplitOnSpace normLast
    let lastWords := String.intercalate " " (lastSplit.drop (lastSplit.length - 5))
    let newWords := jsSplitOnSpace normNew
    match getOverlapLoop newWords lastWords.data 1 (min 5 (newWords.length - 1)) with
    | some t => (true, t)
    | none => (false, newText)

/-- The word splitter `split(/\s+/).filter(w => w.length > 0)` (splitting at every whitespace
character and dropping empty pieces gives the same list as splitting at
whitespace runs). -/
def splitWords (s : String) : List String :=
  ((splitWsGo [] s.data).map String.mk).filter (fun w => w.length > 0)

/-- The segment buffer state of the hook: the append-only
`finalSegmentsRef`, the `lastFinalTextRef` duplicate memo, and the derived
word list with its id counter. -/
structure RecState where
  finalSegments : List String
  lastFinalText : String
  words : List String
  wordIdCounter : ℕ
deriving DecidableEq

/-- Processing of one finalized result in `handleResult`: skip fuzzy
duplicates of the last final text; otherwise overlap-trim against the last
stored segment and append the (nonempty) remainder. -/
def processFinal (st : RecState) (transcript : String) : RecState :=
  let trimmed := jsTrimStr transcript
  if areSimilarTexts trimmed st.lastFinalText then st
  else if trimmed.length > 0 then
    let lastSegment := st.finalSegments.getLastD ""
    let r := getOverlapWithLastSegment trimmed lastSegment
    let textToAdd := if r.fst then r.snd else trimmed
    if textToAdd.length > 0 then
      ⟨st.finalSegments ++ [textToAdd], trimmed,
        st.words ++ splitWords textToAdd, st.wordIdCounter + (splitWords textToAdd).length⟩
    else st
  else st


/-- The leading boundary computed inside `trimSilence`:
`findSpeechStart` on the mono downmix. -/
def speechStartOf (audioBuffer : AudioBuffer) (cfg : RequiredTrimConfig) : ℤ :=
  findSpeechStart (monoSamples audioBuffer) audioBuffer.sampleRate cfg

/-- The trailing boundary computed inside `trimSilence`: `findSpeechEnd` on
the mono downmix when trailing trim is enabled, the full length otherwise. -/
def speechEndOf (audioBuffer : AudioBuffer) (cfg : RequiredTrimConfig) : ℤ :=
  if cfg.trimTrailing then
    findSpeechEnd (monoSamples audioBuffer) audioBuffer.sampleRate cfg
  else ((monoSamples audioBuffer).length : ℤ)

/-! ## Theorems -/

/-- C6: merging an empty `TrimConfig` yields exactly the documented defaults
(`silenceThreshold 0.01`, `endThresholdMultiplier 0.6`, `windowSize 0.05`,
`minSilenceDuration 0.2`, `trimTrailing false`, `maxLeadingTrim 3`,
`maxTrailingTrim 8`, `trailingPadding 0.35`, `minAudioDuration 1.0`); each
omitted option falls back to its default and each present option overrides it,
field by field. -/
theorem trimConfig_defaults :
    mergeConfig {} = ⟨0.01, 0.6, 0.05, 0.2, false, 3, 8, 0.35, 1⟩ ∧
    ∀ c : TrimConfig,
      ((c.silenceThreshold = none → (mergeConfig c).silenceThreshold = 0.01) ∧
        ∀ v, c.silenceThreshold = some v → (mergeConfig c).silenceThreshold = v) ∧
      ((c.endThresholdMultiplier = none →
          (mergeConfig c).endThresholdMultiplier = 0.6) ∧
        ∀ v, c.endThresholdMultiplier = some v →
          (mergeConfig c).endThresholdMultiplier = v) ∧
      ((c.windowSize = none → (mergeConfig c).windowSize = 0.05) ∧
        ∀ v, c.windowSize = some v → (mergeConfig c).windowSize = v) ∧
      ((c.minSilenceDuration = none → (mergeConfig c).minSilenceDuration = 0.2) ∧
        ∀ v, c.minSilenceDuration = some v → (mergeConfig c).minSilenceDuration = v) ∧
      ((c.trimTrailing = none → (mergeConfig c).trimTrailing = false) ∧
        ∀ v, c.trimTrailing = some v → (mergeConfig c).trimTrailing = v) ∧
      ((c.maxLeadingTrim = none → (mergeConfig c).maxLeadingTrim = 3) ∧
        ∀ v, c.maxLeadingTrim = some v → (mergeConfig c).maxLeadingTrim = v) ∧
      ((c.maxTrailingTrim = none → (mergeConfig c).maxTrailingTrim = 8) ∧
        ∀ v, c.maxTrailingTrim = some v → (mergeConfig c).maxTrailingTrim = v) ∧
      ((c.trailingPadding = none → (mergeConfig c).trailingPadding = 0.35) ∧
        ∀ v, c.trailingPadding = some v → (mergeConfig c).trailingPadding = v) ∧
      ((c.minAudioDuration = none → (mergeConfig c).minAudioDuration = 1.0) ∧
        ∀ v, c.minAudioDuration = some v → (mergeConfig c).minAudioDuration = v) := by
  refine ⟨by norm_num [mergeConfig, DEFAULT_CONFIG], fun c => ?_⟩
  refine ⟨⟨fun h => ?_, fun v h => ?_⟩, ⟨fun h => ?_, fun v h => ?_⟩,
    ⟨fun h => ?_, fun v h => ?_⟩, ⟨fun h => ?_, fun v h => ?_⟩,
    ⟨fun h => ?_, fun v h => ?_⟩, ⟨fun h => ?_, fun v h => ?_⟩,
    ⟨fun h => ?_, fun v h => ?_⟩, ⟨fun h => ?_, fun v h => ?_⟩,
    ⟨fun h => ?_, fun v h => ?_⟩⟩ <;>
  simp [mergeConfig, DEFAULT_CONFIG, h]

/-- Witness for C6 at concrete inputs: the empty configuration takes the
default threshold, an explicit `silenceThreshold` overrides it. -/
theorem trimConfig_defaults_witness :
    ({} : TrimConfig).silenceThreshold = none ∧
    (mergeConfig {}).silenceThreshold = 0.01 ∧
    ({ silenceThreshold := some (1 / 2) } : TrimConfig).silenceThreshold = some (1 / 2) ∧
    (mergeConfig { silenceThreshold := some (1 / 2) }).silenceThreshold = 1 / 2 :=
  ⟨rfl, (trimConfig_defaults.2 {}).1.1 rfl, rfl,
    ((trimConfig_defaults.2 { silenceThreshold := some (1 / 2) }).1.2) (1 / 2) rfl⟩

/-- C9: `trimLeadingSilence` returns exactly the blob and leading-trim amount
that `trimSilence` returns for the same input with `trimTrailing` forced to
`false` — for every configuration, including one that set `trimTrailing` to
`true` — and that forced-off run never trims trailing audio: its reported
trailing trim is `0` and its end boundary is the full sample length. -/
theorem trimLeadingSilence_refines_trimSilence :
    ∀ (audioBlob : Blob) (decoded : Option AudioBuffer) (config : TrimConfig),
      trimLeadingSilence audioBlob decoded config =
        ((trimSilence audioBlob decoded { config with trimTrailing := some false }).blob,
          (trimSilence audioBlob decoded
              { config with trimTrailing := some false }).trimmedLeadingMs) ∧
      (trimSilence audioBlob decoded
          { config with trimTrailing := some false }).trimmedTrailingMs = 0 := by
  intro audioBlob decoded config
  refine ⟨rfl, ?_⟩
  cases decoded with
  | none => rfl
  | some audioBuffer =>
    have htt : (mergeConfig { config with trimTrailing := some false }).trimTrailing
        = false := rfl
    have key : ∀ r, trimSilenceCore audioBlob audioBuffer
        (mergeConfig { config with trimTrailing := some false }) = Except.ok r →
        r.trimmedTrailingMs = 0 := by
      intro r h
      unfold trimSilenceCore at h
      rw [htt] at h
      simp only [Bool.false_eq_true, if_false, sub_self, Int.cast_zero, zero_div,
        zero_mul] at h
      split at h
      · exact (Except.ok.inj h) ▸ rfl
      · split at h
        · exact (Except.ok.inj h) ▸ rfl
        · split at h
          · exact absurd h (by simp)
          · refine (Except.ok.inj h) ▸ ?_
            show max 0 (jsRound 0) = 0
            norm_num [jsRound]
    show (match trimSilenceCore audioBlob audioBuffer
        (mergeConfig { config with trimTrailing := some false }) with
      | Except.ok r => r
      | Except.error _ => ⟨audioBlob, 0, 0⟩).trimmedTrailingMs = (0 : ℤ)
    cases h : trimSilenceCore audioBlob audioBuffer
        (mergeConfig { config with trimTrailing := some false }) with
    | ok r => simpa using key r h
    | error e => rfl

/-- The byte list produced by `audioBufferToWav`, with the header appends laid
out explicitly (each `setUintNN` write in source order). -/
theorem audioBufferToWav_data (buffer : AudioBuffer) :
    (audioBufferToWav buffer).data =
      [82, 73, 70, 70] ++
      u32le (44 + buffer.frames * (buffer.numberOfChannels * 2) - 8) ++
      [87, 65, 86, 69] ++ [102, 109, 116, 32] ++ u32le 16 ++ u16le 1 ++
      u16le buffer.numberOfChannels ++ u32le buffer.sampleRate ++
      u32le (buffer.sampleRate * (buffer.numberOfChannels * 2)) ++
      u16le (buffer.numberOfChannels * 2) ++ u16le 16 ++ [100, 97, 116, 97] ++
      u32le (buffer.frames * (buffer.numberOfChannels * 2)) ++
      (List.range buffer.frames).flatMap
        (fun i => (((List.range buffer.numberOfChannels).map
          (fun ch => buffer.getChannelData ch)).map
            (fun c => int16Bytes (encodeSample (c.getD i 0)))).flatten) := rfl

/-- Each interleaved frame of the WAV body contributes `2 * numChannels`
bytes. -/
theorem wav_body_frame_length (buffer : AudioBuffer) (i : ℕ) :
    ((((List.range buffer.numberOfChannels).map
        (fun ch => buffer.getChannelData ch)).map
          (fun c => int16Bytes (encodeSample (c.getD i 0)))).flatten).length =
      2 * buffer.numberOfChannels := by
  rw [List.length_flatten, List.map_map, List.map_map]
  have h := List.map_congr_left
    (l := List.range buffer.numberOfChannels)
    (f := (List.length ∘ fun c => int16Bytes (encodeSample (c.getD i 0))) ∘
      fun ch => buffer.getChannelData ch)
    (g := fun _ => (2 : ℕ)) (fun ch _ => rfl)
  rw [h]
  simp [List.map_const', List.sum_replicate, smul_eq_mul, mul_comm]

/-- The WAV blob is the 44-byte header plus `2 * numChannels` bytes per
frame. -/
theorem audioBufferToWav_length (buffer : AudioBuffer) :
    (audioBufferToWav buffer).data.length =
      44 + 2 * buffer.numberOfChannels * buffer.frames := by
  rw [audioBufferToWav_data, List.length_append, List.length_flatMap]
  have h := List.map_congr_left
    (l := List.range buffer.frames)
    (f := List.length ∘ fun i => (((List.range buffer.numberOfChannels).map
      (fun ch => buffer.getChannelData ch)).map
        (fun c => int16Bytes (encodeSample (c.getD i 0)))).flatten)
    (g := fun _ => 2 * buffer.numberOfChannels)
    (fun i _ => wav_body_frame_length buffer i)
  rw [h]
  simp [u16le, u32le, List.map_const', List.sum_replicate, smul_eq_mul]
  ring

/-- C10: `audioBufferToWav` clamps each sample into `[-1, 1]` before scaling
(by `0x8000` for negative and `0x7fff` for non-negative values), so every
encoded sample lies in the signed 16-bit range `[-32768, 32767]`; the produced
blob is exactly `44 + 2 * numChannels * frames` bytes; and the header stores
`blockAlign = 2 * numChannels` (offset 32) and
`byteRate = sampleRate * blockAlign` (offset 28), each reduced modulo the
width of its field as `setUint16`/`setUint32` do. -/
theorem audioBufferToWav_format :
    (∀ x : ℚ, -32768 ≤ encodeSample x ∧ encodeSample x ≤ 32767) ∧
    (∀ buffer : AudioBuffer,
      (audioBufferToWav buffer).data.length =
        44 + 2 * buffer.numberOfChannels * buffer.frames) ∧
    (∀ buffer : AudioBuffer,
      readU16LE (audioBufferToWav buffer).data 32 =
        2 * buffer.numberOfChannels % 65536 ∧
      readU32LE (audioBufferToWav buffer).data 28 =
        buffer.sampleRate * (2 * buffer.numberOfChannels) % 4294967296) := by
  refine ⟨?_, ?_, ?_⟩
  · intro x
    have h1 : -1 ≤ max (-1) (min 1 x) := le_max_left _ _
    have h2 : max (-1) (min 1 x) ≤ 1 := by
      rcases le_or_lt x 1 with h | h
      · exact max_le (by norm_num) (min_le_of_right_le h)
      · exact max_le (by norm_num) (min_le_left _ _)
    set s := max (-1) (min 1 x) with hs
    have he : encodeSample x =
        truncToInt (if s < 0 then s * 0x8000 else s * 0x7fff) := rfl
    rw [he]
    by_cases hneg : s < 0
    · rw [if_pos hneg]
      have hq : s * 0x8000 < 0 := by nlinarith
      rw [truncToInt, if_pos hq]
      refine ⟨?_, ?_⟩
      · have hle : -(s * 0x8000) ≤ 32768 := by nlinarith
        have hf : ⌊-(s * 0x8000)⌋ ≤ ⌊(32768 : ℚ)⌋ := Int.floor_le_floor hle
        rw [show ⌊(32768 : ℚ)⌋ = 32768 from by norm_num] at hf
        omega
      · have hf : 0 ≤ ⌊-(s * 0x8000)⌋ := Int.floor_nonneg.mpr (by nlinarith)
        omega
    · rw [if_neg hneg]
      push_neg at hneg
      have hq : ¬s * 0x7fff < 0 := not_lt.mpr (by nlinarith)
      rw [truncToInt, if_neg hq]
      refine ⟨?_, ?_⟩
      · have hf : 0 ≤ ⌊s * 0x7fff⌋ := Int.floor_nonneg.mpr (by nlinarith)
        omega
      · have hle : s * 0x7fff ≤ 32767 := by nlinarith
        have hf : ⌊s * 0x7fff⌋ ≤ ⌊(32767 : ℚ)⌋ := Int.floor_le_floor hle
        rw [show ⌊(32767 : ℚ)⌋ = 32767 from by norm_num] at hf
        omega
  · intro buffer
    exact audioBufferToWav_length buffer
  · intro buffer
    constructor
    · rw [audioBufferToWav_data]
      simp only [u16le, u32le, List.cons_append, List.nil_append]
      show buffer.numberOfChannels * 2 % 256 +
          256 * (buffer.numberOfChannels * 2 / 256 % 256) = _
      omega
    · rw [audioBufferToWav_data]
      simp only [u16le, u32le, List.cons_append, List.nil_append]
      show buffer.sampleRate * (buffer.numberOfChannels * 2) % 256 +
          256 * (buffer.sampleRate * (buffer.numberOfChannels * 2) / 256 % 256) +
          65536 * (buffer.sampleRate * (buffer.numberOfChannels * 2) / 65536 % 256) +
          16777216 *
            (buffer.sampleRate * (buffer.numberOfChannels * 2) / 16777216 % 256) = _
      rw [show buffer.sampleRate * (2 * buffer.numberOfChannels) =
        buffer.sampleRate * (buffer.numberOfChannels * 2) from by ring]
      omega

/-- C3: `trimSilence` never raises. A failed decode (`none`) and every failing
processing step (the `Except.error` outcome of the core) are caught and give
back the original blob with zero reported trim; in every other case the
successfully computed result is returned. The embedded `trimSilence` is a
total function whose error handling is exactly this match. -/
theorem trimSilence_never_raises :
    (∀ (audioBlob : Blob) (config : TrimConfig),
      trimSilence audioBlob none config = ⟨audioBlob, 0, 0⟩) ∧
    (∀ (audioBlob : Blob) (audioBuffer : AudioBuffer) (config : TrimConfig),
      (∃ r, trimSilenceCore audioBlob audioBuffer (mergeConfig config) =
          Except.ok r ∧ trimSilence audioBlob (some audioBuffer) config = r) ∨
      (trimSilenceCore audioBlob audioBuffer (mergeConfig config) =
          Except.error () ∧
        trimSilence audioBlob (some audioBuffer) config = ⟨audioBlob, 0, 0⟩)) := by
  constructor
  · intro b c
    rfl
  · intro b ab c
    cases h : trimSilenceCore b ab (mergeConfig c) with
    | ok r =>
      refine Or.inl ⟨r, rfl, ?_⟩
      simp [trimSilence, h]
    | error e =>
      cases e
      refine Or.inr ⟨rfl, ?_⟩
      simp [trimSilence, h]

/-- Lemma writing `trimSilenceCore` out over the boundary abbreviations (definitional
unfolding of its `let`s). -/
theorem trimSilenceCore_eq (audioBlob : Blob) (audioBuffer : AudioBuffer)
    (cfg : RequiredTrimConfig) :
    trimSilenceCore audioBlob audioBuffer cfg =
      if speechEndOf audioBuffer cfg - speechStartOf audioBuffer cfg <
          ⌊(audioBuffer.sampleRate : ℚ) * cfg.minAudioDuration⌋ then
        Except.ok ⟨audioBlob, 0, 0⟩
      else if speechStartOf audioBuffer cfg = 0 ∧
          speechEndOf audioBuffer cfg = ((monoSamples audioBuffer).length : ℤ) then
        Except.ok ⟨audioBlob, 0, 0⟩
      else if speechEndOf audioBuffer cfg - speechStartOf audioBuffer cfg ≤ 0 then
        Except.error ()
      else
        Except.ok
          ⟨audioBufferToWav
              ⟨audioBuffer.channels.map
                (fun original =>
                  (List.range
                      (speechEndOf audioBuffer cfg -
                        speechStartOf audioBuffer cfg).toNat).map
                    (fun i =>
                      original.getD (speechStartOf audioBuffer cfg + (i : ℤ)).toNat 0)),
               audioBuffer.sampleRate⟩,
            jsRound ((speechStartOf audioBuffer cfg : ℚ) /
              (audioBuffer.sampleRate : ℚ) * 1000),
            max 0 (jsRound
              ((((monoSamples audioBuffer).length : ℤ) -
                  speechEndOf audioBuffer cfg : ℤ) /
                (audioBuffer.sampleRate : ℚ) * 1000))⟩ := rfl

/-- C1 (amended): `trimSilence` either passes the original blob through with
zero reported trim — in particular whenever the computed boundaries are `0`
and the full sample length — or returns a newly trimmed blob holding at least
`⌊sampleRate * minAudioDuration⌋` samples (so trimming itself never produces
audio below the floor; an input that was already shorter than
`minAudioDuration` is passed through unchanged, not lengthened). -/
theorem trimSilence_min_duration_amended :
    ∀ (audioBlob : Blob) (audioBuffer : AudioBuffer) (config : TrimConfig),
      (trimSilence audioBlob (some audioBuffer) config = ⟨audioBlob, 0, 0⟩ ∨
        (⌊(audioBuffer.sampleRate : ℚ) * (mergeConfig config).minAudioDuration⌋ ≤
            speechEndOf audioBuffer (mergeConfig config) -
              speechStartOf audioBuffer (mergeConfig config) ∧
          0 < speechEndOf audioBuffer (mergeConfig config) -
              speechStartOf audioBuffer (mergeConfig config) ∧
          (trimSilence audioBlob (some audioBuffer) config).blob.data.length =
            44 + 2 * audioBuffer.numberOfChannels *
              (speechEndOf audioBuffer (mergeConfig config) -
                speechStartOf audioBuffer (mergeConfig config)).toNat)) ∧
      (speechStartOf audioBuffer (mergeConfig config) = 0 ∧
          speechEndOf audioBuffer (mergeConfig config) =
            ((monoSamples audioBuffer).length : ℤ) →
        trimSilence audioBlob (some audioBuffer) config = ⟨audioBlob, 0, 0⟩) := by
  intro audioBlob audioBuffer config
  have ht : trimSilence audioBlob (some audioBuffer) config =
      (match trimSilenceCore audioBlob audioBuffer (mergeConfig config) with
        | Except.ok r => r
        | Except.error _ => ⟨audioBlob, 0, 0⟩) := rfl
  rw [trimSilenceCore_eq] at ht
  by_cases h1 : speechEndOf audioBuffer (mergeConfig config) -
      speechStartOf audioBuffer (mergeConfig config) <
      ⌊(audioBuffer.sampleRate : ℚ) * (mergeConfig config).minAudioDuration⌋
  · rw [if_pos h1] at ht
    exact ⟨Or.inl ht, fun _ => ht⟩
  · rw [if_neg h1] at ht
    by_cases h2 : speechStartOf audioBuffer (mergeConfig config) = 0 ∧
        speechEndOf audioBuffer (mergeConfig config) =
          ((monoSamples audioBuffer).length : ℤ)
    · rw [if_pos h2] at ht
      exact ⟨Or.inl ht, fun _ => ht⟩
    · rw [if_neg h2] at ht
      by_cases h3 : speechEndOf audioBuffer (mergeConfig config) -
          speechStartOf audioBuffer (mergeConfig config) ≤ 0
      · rw [if_pos h3] at ht
        exact ⟨Or.inl ht, fun hex => absurd hex h2⟩
      · rw [if_neg h3] at ht
        dsimp only at ht
        refine ⟨Or.inr ⟨not_lt.mp h1, not_le.mp h3, ?_⟩, fun hex => absurd hex h2⟩
        rw [ht]
        show (audioBufferToWav
          ⟨audioBuffer.channels.map
            (fun original =>
              (List.range (speechEndOf audioBuffer (mergeConfig config) -
                speechStartOf audioBuffer (mergeConfig config)).toNat).map
                (fun i => original.getD
                  (speechStartOf audioBuffer (mergeConfig config) + (i : ℤ)).toNat 0)),
            audioBuffer.sampleRate⟩).data.length = _
        rw [audioBufferToWav_length]
        cases hc : audioBuffer.channels with
        | nil =>
          simp [AudioBuffer.numberOfChannels, AudioBuffer.frames, hc]
        | cons c0 rest =>
          simp [AudioBuffer.numberOfChannels, AudioBuffer.frames, hc]

/-- Witness for C1 (amended) at a concrete input: half-amplitude audio from
sample 0 gives boundaries `0` and the full length, and `trimSilence` passes
the original blob through with zero reported trim. -/
theorem trimSilence_min_duration_amended_witness :
    (speechStartOf ⟨[List.replicate 30 (1 / 2 : ℚ)], 20⟩ (mergeConfig {}) = 0 ∧
      speechEndOf ⟨[List.replicate 30 (1 / 2 : ℚ)], 20⟩ (mergeConfig {}) =
        ((monoSamples ⟨[List.replicate 30 (1 / 2 : ℚ)], 20⟩).length : ℤ)) ∧
    trimSilence ⟨[7], "audio/webm"⟩
        (some ⟨[List.replicate 30 (1 / 2 : ℚ)], 20⟩) {} =
      ⟨⟨[7], "audio/webm"⟩, 0, 0⟩ :=
  ⟨⟨by decide, by decide⟩,
    (trimSilence_min_duration_amended ⟨[7], "audio/webm"⟩
      ⟨[List.replicate 30 (1 / 2 : ℚ)], 20⟩ {}).2 ⟨by decide, by decide⟩⟩

/-- Counterexample to C1 as stated: a decoded input of 50 samples at rate 100
(0.5 s of audio, all silent) is returned unchanged, so `trimSilence` returns
audio of duration 0.5 s, which is shorter than the default
`minAudioDuration = 1.0` s. The universally quantified claim "never returns
audio shorter than `minAudioDuration`" therefore fails; only the trimming
itself respects the floor. -/
theorem trimSilence_short_input_counterexample :
    trimSilence ⟨[1, 2, 3], "audio/webm"⟩
        (some ⟨[List.replicate 50 (0 : ℚ)], 100⟩) {} =
      ⟨⟨[1, 2, 3], "audio/webm"⟩, 0, 0⟩ ∧
    ((monoSamples ⟨[List.replicate 50 (0 : ℚ)], 100⟩).length : ℚ) / 100 <
      (mergeConfig {}).minAudioDuration := by
  constructor
  · decide
  · decide

/-- The `findSpeechStart` scan never answers beyond `maxTrimSamples` (for a
nonnegative window and cap): every exit of the loop is `0`, a back-off from a
position strictly inside the cap, or `min … maxTrimSamples`. -/
theorem findSpeechStartGo_le_maxTrim (samples : List ℚ) (thr : ℚ)
    (w maxT minS : ℤ) (hw : 0 ≤ w) (hmax : 0 ≤ maxT) :
    ∀ (fuel : ℕ) (i silent : ℤ),
      findSpeechStartGo samples thr w maxT minS fuel i silent ≤ maxT := by
  intro fuel
  induction fuel with
  | zero =>
    intro i silent
    unfold findSpeechStartGo
    split
    · exact min_le_right _ _
    · exact hmax
  | succ fuel ih =>
    intro i silent
    unfold findSpeechStartGo
    dsimp only
    split
    · next hin =>
      split
      · split
        · next hsil =>
          have hw2 : 0 ≤ ⌊(w : ℚ) / 2⌋ := by
            refine Int.floor_nonneg.mpr (div_nonneg ?_ (by norm_num))
            exact_mod_cast hw
          have hi : i - ⌊(w : ℚ) / 2⌋ ≤ maxT := by omega
          omega
        · exact hmax
      · exact ih (i + w) (silent + w)
    · split
      · exact min_le_right _ _
      · exact hmax

/-- Characterization of the `findSpeechStart` scan: if the windows starting at
`i, i+w, …, i+(j-1)w` are all below the threshold and the window at `i + j*w`
is the first to meet it (still inside the scan bounds), the loop answers from
that window: the half-window back-off when at least `minSilenceSamples` of
silence accumulated, `0` otherwise. -/
theorem findSpeechStartGo_first_loud (samples : List ℚ) (thr : ℚ)
    (w maxT minS : ℤ) (hw : 1 ≤ w) :
    ∀ (j fuel : ℕ) (i silent : ℤ),
      (∀ k : ℕ, k < j →
        rmsGe (computeMeanSq samples (i + (k : ℤ) * w) w) thr = false) →
      rmsGe (computeMeanSq samples (i + (j : ℤ) * w) w) thr = true →
      i + (j : ℤ) * w < (samples.length : ℤ) →
      i + (j : ℤ) * w < maxT →
      j < fuel →
      findSpeechStartGo samples thr w maxT minS fuel i silent =
        if minS ≤ silent + (j : ℤ) * w then
          max 0 (i + (j : ℤ) * w - ⌊(w : ℚ) / 2⌋)
        else 0 := by
  intro j
  induction j with
  | zero =>
    intro fuel i silent hquiet hloud hlen hmax hfuel
    obtain ⟨fuel, rfl⟩ : ∃ f, fuel = f + 1 := ⟨fuel - 1, by omega⟩
    unfold findSpeechStartGo
    dsimp only
    simp only [Nat.cast_zero, zero_mul, add_zero] at hloud hlen hmax ⊢
    rw [if_pos ⟨hlen, hmax⟩, if_pos hloud]
  | succ j ih =>
    intro fuel i silent hquiet hloud hlen hmax hfuel
    obtain ⟨fuel, rfl⟩ : ∃ f, fuel = f + 1 := ⟨fuel - 1, by omega⟩
    have hjw : (0 : ℤ) ≤ (j : ℤ) * w := by positivity
    have hsw : (0 : ℤ) < ((j : ℤ) + 1) * w := by positivity
    have hin : i < (samples.length : ℤ) ∧ i < maxT := by
      push_cast at hlen hmax
      constructor <;> nlinarith
    unfold findSpeechStartGo
    dsimp only
    rw [if_pos hin]
    have h0 : rmsGe (computeMeanSq samples i w) thr = false := by
      have := hquiet 0 (by omega)
      simpa using this
    rw [h0]
    simp only [Bool.false_eq_true, if_false]
    have heq := ih fuel (i + w) (silent + w)
      (fun k hk => by
        have := hquiet (k + 1) (by omega)
        have harg : i + ((k : ℤ) + 1) * w = i + w + (k : ℤ) * w := by ring
        push_cast at this
        rw [harg] at this
        exact this)
      (by
        have harg : i + ((j : ℤ) + 1) * w = i + w + (j : ℤ) * w := by ring
        push_cast at hloud
        rw [harg] at hloud
        exact hloud)
      (by push_cast at hlen ⊢; linarith)
      (by push_cast at hmax ⊢; linarith)
      (by omega)
    rw [heq]
    have harg1 : silent + w + (j : ℤ) * w = silent + ((j : ℤ) + 1) * w := by ring
    have harg2 : i + w + (j : ℤ) * w = i + ((j : ℤ) + 1) * w := by ring
    rw [harg1, harg2]
    push_cast
    rfl

/-- C4 (amended): with `w = ⌊sampleRate*windowSize⌋` samples per window, the
onset returned by `findSpeechStart` never exceeds
`⌊sampleRate*maxLeadingTrim⌋` samples; and when the window at `j*w` is the
first whose RMS meets `silenceThreshold` (inside the scan bounds), the
returned onset is that position backed off by half a window — but only when at
least `minSilenceSamples` of silence accumulated before it; with a shorter
leading silence the function returns `0` instead of the backed-off position. -/
theorem findSpeechStart_onset_amended :
    ∀ (samples : List ℚ) (sampleRate : ℕ) (cfg : RequiredTrimConfig)
      (w maxT minS : ℤ),
      w = ⌊(sampleRate : ℚ) * cfg.windowSize⌋ →
      maxT = ⌊(sampleRate : ℚ) * cfg.maxLeadingTrim⌋ →
      minS = ⌊(sampleRate : ℚ) * cfg.minSilenceDuration⌋ →
      1 ≤ w →
      (0 ≤ maxT → findSpeechStart samples sampleRate cfg ≤ maxT) ∧
      (∀ j : ℕ,
        (∀ k : ℕ, k < j →
          rmsGe (computeMeanSq samples ((k : ℤ) * w) w)
            cfg.silenceThreshold = false) →
        rmsGe (computeMeanSq samples ((j : ℤ) * w) w)
          cfg.silenceThreshold = true →
        (j : ℤ) * w < (samples.length : ℤ) →
        (j : ℤ) * w < maxT →
        findSpeechStart samples sampleRate cfg =
          if minS ≤ (j : ℤ) * w then
            max 0 ((j : ℤ) * w - ⌊(w : ℚ) / 2⌋)
          else 0) := by
  intro samples sampleRate cfg w maxT minS hwdef hmaxdef hmindef hw
  have hstart : findSpeechStart samples sampleRate cfg =
      findSpeechStartGo samples cfg.silenceThreshold w maxT minS
        (samples.length + 1) 0 0 := by
    rw [hwdef, hmaxdef, hmindef]; rfl
  constructor
  · intro hmax
    rw [hstart]
    exact findSpeechStartGo_le_maxTrim samples cfg.silenceThreshold w maxT minS
      (by omega) hmax _ 0 0
  · intro j hquiet hloud hlen hmax
    rw [hstart]
    have heq := findSpeechStartGo_first_loud samples cfg.silenceThreshold
      w maxT minS hw j (samples.length + 1) 0 0
      (fun k hk => by simpa using hquiet k hk)
      (by simpa using hloud)
      (by simpa using hlen)
      (by simpa using hmax)
      (by
        have hj : (j : ℤ) ≤ (j : ℤ) * w :=
          le_mul_of_one_le_right (Int.natCast_nonneg j) hw
        have : (j : ℤ) < (samples.length : ℤ) := lt_of_le_of_lt hj hlen
        omega)
    rw [heq]
    simp

/-- Witness for C4 (amended) at a concrete input: 20 zero samples then
half-amplitude audio at rate 100 (window 5, first loud window at sample 20,
`minSilenceSamples = 20` accumulated) gives onset `max 0 (20 - 2) = 18`. -/
theorem findSpeechStart_onset_amended_witness :
    findSpeechStart (List.replicate 20 (0 : ℚ) ++ List.replicate 5 (1 / 2)) 100
        (mergeConfig {}) = 18 :=
  ((findSpeechStart_onset_amended
      (List.replicate 20 (0 : ℚ) ++ List.replicate 5 (1 / 2)) 100 (mergeConfig {})
      5 300 20 (by decide) (by decide) (by decide) (by decide)).2 4
    (by decide) (by decide) (by decide) (by decide)).trans (by decide)

/-- Counterexample to C4 as stated: at rate 100 with the default
configuration (window 5 samples, `minSilenceSamples` 20), for 5 zero samples
followed by half-amplitude audio the first window meeting `silenceThreshold`
starts at sample 5, so the claimed onset is `max 0 (5 - ⌊5/2⌋) = 3`; but the
accumulated silence (5 samples) is below `minSilenceSamples`, and
`findSpeechStart` returns `0`, not the backed-off position. -/
theorem findSpeechStart_backoff_counterexample :
    rmsGe (computeMeanSq (List.replicate 5 (0 : ℚ) ++ List.replicate 45 (1 / 2)) 0 5)
      (mergeConfig {}).silenceThreshold = false ∧
    rmsGe (computeMeanSq (List.replicate 5 (0 : ℚ) ++ List.replicate 45 (1 / 2)) 5 5)
      (mergeConfig {}).silenceThreshold = true ∧
    findSpeechStart (List.replicate 5 (0 : ℚ) ++ List.replicate 45 (1 / 2)) 100
      (mergeConfig {}) = 0 ∧
    max (0 : ℤ) (5 - ⌊(5 : ℚ) / 2⌋) = 3 :=
  ⟨by decide, by decide, by decide, by decide⟩

/-- Characterization of the backward `findSpeechEnd` scan. Starting anywhere
with the loop invariants (`silentSamples` counts exactly the samples to the
right of the current window; `previousRMS` is `0` or the previous window's
mean square), the scan either answers the full length, or it detected a
speech/decrescendo window at some `i'`: the silence run to its right is at
least `minSilenceSamples` and at most `maxTrailingTrimSamples`, and the answer
is `min length (i' + w + trailingPaddingSamples)`. -/
theorem findSpeechEndGo_characterization (samples : List ℚ) (endThr : ℚ)
    (w minS maxT pad : ℤ) (hw : 1 ≤ w) :
    ∀ (fuel : ℕ) (i silent : ℤ) (prevM : ℚ),
      silent = (samples.length : ℤ) - w - i →
      i ≤ (samples.length : ℤ) - w →
      (prevM = 0 ∨ prevM = computeMeanSq samples (i + w) w) →
      (findSpeechEndGo samples endThr w minS maxT pad fuel i silent prevM =
          (samples.length : ℤ) ∨
        ∃ i' : ℤ, 0 ≤ i' ∧ i' ≤ (samples.length : ℤ) - w ∧
          minS ≤ (samples.length : ℤ) - w - i' ∧
          (samples.length : ℤ) - w - i' ≤ maxT ∧
          (∃ prevM' : ℚ,
            (prevM' = 0 ∨ prevM' = computeMeanSq samples (i' + w) w) ∧
            (rmsGe (computeMeanSq samples i' w) endThr ||
              isDecrescendo prevM' (computeMeanSq samples i' w) endThr) = true) ∧
          findSpeechEndGo samples endThr w minS maxT pad fuel i silent prevM =
            min (samples.length : ℤ) (i' + w + pad)) := by
  intro fuel
  induction fuel with
  | zero =>
    intro i silent prevM hsil hile hprev
    exact Or.inl rfl
  | succ fuel ih =>
    intro i silent prevM hsil hile hprev
    unfold findSpeechEndGo
    dsimp only
    by_cases hi : 0 ≤ i
    · rw [if_pos hi]
      by_cases hcap : maxT < silent
      · rw [if_pos hcap]
        exact Or.inl rfl
      · rw [if_neg hcap]
        by_cases htest : (rmsGe (computeMeanSq samples i w) endThr ||
            isDecrescendo prevM (computeMeanSq samples i w) endThr) = true
        · rw [if_pos htest]
          by_cases hminS : minS ≤ silent
          · rw [if_pos hminS]
            refine Or.inr ⟨i, hi, hile, by omega, by omega,
              ⟨prevM, hprev, htest⟩, rfl⟩
          · rw [if_neg hminS]
            exact Or.inl rfl
        · rw [if_neg htest]
          exact ih (i - w) (silent + w) (computeMeanSq samples i w)
            (by omega) (by omega)
            (Or.inr (by rw [sub_add_cancel]))
    · rw [if_neg hi]
      exact Or.inl rfl

/-- C2 (amended): when the backward scan detects a genuine speech end — a
silence run of at least `minSilenceSamples` (and at most
`maxTrailingTrimSamples`) to the right of a window passing the
speech/decrescendo test — the boundary is
`min length (i' + w + ⌊sampleRate*trailingPadding⌋)`. It therefore preserves
after the last speech window exactly `⌊sampleRate*trailingPadding⌋` samples
when that much audio remains, and all remaining audio otherwise (which can be
less than `trailingPadding` seconds); and the trailing audio trimmed never
exceeds `⌊sampleRate*maxTrailingTrim⌋` samples. In every other case the scan
returns the full length and nothing is trimmed. -/
theorem findSpeechEnd_boundary_amended :
    ∀ (samples : List ℚ) (sampleRate : ℕ) (cfg : RequiredTrimConfig)
      (w minS maxT pad : ℤ),
      w = ⌊(sampleRate : ℚ) * cfg.windowSize⌋ →
      minS = ⌊(sampleRate : ℚ) * cfg.minSilenceDuration⌋ →
      maxT = ⌊(sampleRate : ℚ) * cfg.maxTrailingTrim⌋ →
      pad = ⌊(sampleRate : ℚ) * cfg.trailingPadding⌋ →
      1 ≤ w → 0 ≤ pad →
      (findSpeechEnd samples sampleRate cfg = (samples.length : ℤ) ∨
        ∃ i' : ℤ, 0 ≤ i' ∧ i' ≤ (samples.length : ℤ) - w ∧
          minS ≤ (samples.length : ℤ) - w - i' ∧
          (samples.length : ℤ) - w - i' ≤ maxT ∧
          (∃ prevM' : ℚ,
            (prevM' = 0 ∨ prevM' = computeMeanSq samples (i' + w) w) ∧
            (rmsGe (computeMeanSq samples i' w)
                (cfg.silenceThreshold * cfg.endThresholdMultiplier) ||
              isDecrescendo prevM' (computeMeanSq samples i' w)
                (cfg.silenceThreshold * cfg.endThresholdMultiplier)) = true) ∧
          findSpeechEnd samples sampleRate cfg =
            min (samples.length : ℤ) (i' + w + pad) ∧
          min (samples.length : ℤ) (i' + w + pad) - (i' + w) =
            min ((samples.length : ℤ) - (i' + w)) pad ∧
          (samples.length : ℤ) - min (samples.length : ℤ) (i' + w + pad) ≤ maxT) := by
  intro samples sampleRate cfg w minS maxT pad hwdef hmindef hmaxdef hpaddef hw hpad
  have hend : findSpeechEnd samples sampleRate cfg =
      findSpeechEndGo samples (cfg.silenceThreshold * cfg.endThresholdMultiplier)
        w minS maxT pad (samples.length + 1)
        ((samples.length : ℤ) - w) 0 0 := by
    rw [hwdef, hmindef, hmaxdef, hpaddef]; rfl
  have hchar := findSpeechEndGo_characterization samples
    (cfg.silenceThreshold * cfg.endThresholdMultiplier) w minS maxT pad hw
    (samples.length + 1) ((samples.length : ℤ) - w) 0 0
    (by omega) le_rfl (Or.inl rfl)
  rcases hchar with h | ⟨i', hi0, hile, hminS, hcap, htest, hret⟩
  · exact Or.inl (hend.trans h)
  · refine Or.inr ⟨i', hi0, hile, hminS, hcap, htest, hend.trans hret, by omega, by omega⟩

/-- Witness for C2 (amended) at a concrete input: 15 half-amplitude samples
then 10 zero samples at rate 20 (window 1 sample, `minSilenceSamples` 4,
`maxTrailingTrimSamples` 160, `trailingPaddingSamples` 7). -/
theorem findSpeechEnd_boundary_amended_witness :
    (1 : ℤ) ≤ 1 ∧ (0 : ℤ) ≤ 7 ∧
    (findSpeechEnd (List.replicate 15 (1 / 2 : ℚ) ++ List.replicate 10 0) 20
        (mergeConfig {}) =
        (((List.replicate 15 (1 / 2 : ℚ) ++ List.replicate 10 0).length : ℕ) : ℤ) ∨
      ∃ i' : ℤ, 0 ≤ i' ∧
        i' ≤ (((List.replicate 15 (1 / 2 : ℚ) ++
          List.replicate 10 0).length : ℕ) : ℤ) - 1 ∧
        4 ≤ (((List.replicate 15 (1 / 2 : ℚ) ++
          List.replicate 10 0).length : ℕ) : ℤ) - 1 - i' ∧
        (((List.replicate 15 (1 / 2 : ℚ) ++
          List.replicate 10 0).length : ℕ) : ℤ) - 1 - i' ≤ 160 ∧
        (∃ prevM' : ℚ,
          (prevM' = 0 ∨ prevM' = computeMeanSq
            (List.replicate 15 (1 / 2 : ℚ) ++ List.replicate 10 0) (i' + 1) 1) ∧
          (rmsGe (computeMeanSq
              (List.replicate 15 (1 / 2 : ℚ) ++ List.replicate 10 0) i' 1)
              ((mergeConfig {}).silenceThreshold *
                (mergeConfig {}).endThresholdMultiplier) ||
            isDecrescendo prevM' (computeMeanSq
              (List.replicate 15 (1 / 2 : ℚ) ++ List.replicate 10 0) i' 1)
              ((mergeConfig {}).silenceThreshold *
                (mergeConfig {}).endThresholdMultiplier)) = true) ∧
        findSpeechEnd (List.replicate 15 (1 / 2 : ℚ) ++ List.replicate 10 0) 20
          (mergeConfig {}) =
          min (((List.replicate 15 (1 / 2 : ℚ) ++
            List.replicate 10 0).length : ℕ) : ℤ) (i' + 1 + 7) ∧
        min (((List.replicate 15 (1 / 2 : ℚ) ++
            List.replicate 10 0).length : ℕ) : ℤ) (i' + 1 + 7) - (i' + 1) =
          min ((((List.replicate 15 (1 / 2 : ℚ) ++
            List.replicate 10 0).length : ℕ) : ℤ) - (i' + 1)) 7 ∧
        (((List.replicate 15 (1 / 2 : ℚ) ++
          List.replicate 10 0).length : ℕ) : ℤ) -
          min (((List.replicate 15 (1 / 2 : ℚ) ++
            List.replicate 10 0).length : ℕ) : ℤ) (i' + 1 + 7) ≤ 160) :=
  ⟨le_refl 1, by decide,
    findSpeechEnd_boundary_amended
      (List.replicate 15 (1 / 2 : ℚ) ++ List.replicate 10 0) 20 (mergeConfig {})
      1 4 160 7 (by decide) (by decide) (by decide) (by decide) (by decide)
      (by decide)⟩

set_option maxRecDepth 8000 in
/-- Counterexample to C2 as stated: 75 half-amplitude samples followed by
exactly 25 zero samples at rate 100 with the default configuration. The scan
confirms a genuine speech end (five silent windows, a 25-sample ≥
`minSilenceSamples = 20` run, then the speech window at sample 70), yet only
25 samples = 0.25 s of audio remain after that window, so the returned
boundary (the full length, 100) preserves less than
`trailingPadding = 0.35` s after the last detected speech window. -/
theorem findSpeechEnd_padding_counterexample :
    (∀ k : ℕ, k < 5 →
      rmsGe (computeMeanSq
          (List.replicate 75 (1 / 2 : ℚ) ++ List.replicate 25 0)
          (75 + (k : ℤ) * 5) 5)
        ((mergeConfig {}).silenceThreshold *
          (mergeConfig {}).endThresholdMultiplier) = false) ∧
    rmsGe (computeMeanSq
        (List.replicate 75 (1 / 2 : ℚ) ++ List.replicate 25 0) 70 5)
      ((mergeConfig {}).silenceThreshold *
        (mergeConfig {}).endThresholdMultiplier) = true ∧
    (20 : ℤ) ≤ 100 - 5 - 70 ∧
    findSpeechEnd (List.replicate 75 (1 / 2 : ℚ) ++ List.replicate 25 0) 100
      (mergeConfig {}) = 100 ∧
    ((100 - 75 : ℤ) : ℚ) / 100 < (mergeConfig {}).trailingPadding :=
  ⟨by decide, by decide, by decide, by decide, by decide⟩


/-- Every window of an all-zero buffer has zero energy. -/
theorem computeMeanSq_replicate_zero (n : ℕ) (start len : ℤ) :
    computeMeanSq (List.replicate n (0 : ℚ)) start len = 0 := by
  have hz : ∀ i : ℕ, (List.replicate n (0 : ℚ)).getD i 0 = 0 := by
    intro i
    rcases lt_or_ge i n with h | h
    · simp [List.getD, List.getElem?_eq_getElem, h]
    · have hlen : (List.replicate n (0 : ℚ)).length ≤ i := by simpa using h
      simp [List.getD, List.getElem?_eq_none_iff.mpr hlen]
  unfold computeMeanSq
  dsimp only
  split
  · rfl
  · rw [List.map_congr_left (g := fun _ => (0 : ℚ)) (fun k _ => by rw [hz]; ring)]
    simp

/-- C8: if every window the backward scan can visit while its accumulated
silence is still within `maxTrailingTrimSamples` fails the speech/decrescendo
test — i.e. the scan would accumulate more than `maxTrailingTrim` of silence
before encountering a speech window — then `findSpeechEnd` returns the full
sample length; and whenever the end boundary equals the full length,
`trimSilence` reports zero trailing trim (nothing is trimmed from the tail,
rather than trimming up to the cap). -/
theorem findSpeechEnd_cap_exceeded :
    (∀ (samples : List ℚ) (sampleRate : ℕ) (cfg : RequiredTrimConfig)
      (w minS maxT pad : ℤ),
      w = ⌊(sampleRate : ℚ) * cfg.windowSize⌋ →
      minS = ⌊(sampleRate : ℚ) * cfg.minSilenceDuration⌋ →
      maxT = ⌊(sampleRate : ℚ) * cfg.maxTrailingTrim⌋ →
      pad = ⌊(sampleRate : ℚ) * cfg.trailingPadding⌋ →
      1 ≤ w →
      (∀ i' : ℤ, 0 ≤ i' → i' ≤ (samples.length : ℤ) - w →
        (samples.length : ℤ) - w - i' ≤ maxT →
        ∀ prevM' : ℚ,
          (prevM' = 0 ∨ prevM' = computeMeanSq samples (i' + w) w) →
          (rmsGe (computeMeanSq samples i' w)
              (cfg.silenceThreshold * cfg.endThresholdMultiplier) ||
            isDecrescendo prevM' (computeMeanSq samples i' w)
              (cfg.silenceThreshold * cfg.endThresholdMultiplier)) = false) →
      findSpeechEnd samples sampleRate cfg = (samples.length : ℤ)) ∧
    (∀ (audioBlob : Blob) (audioBuffer : AudioBuffer) (config : TrimConfig),
      speechEndOf audioBuffer (mergeConfig config) =
        ((monoSamples audioBuffer).length : ℤ) →
      (trimSilence audioBlob (some audioBuffer) config).trimmedTrailingMs = 0) := by
  constructor
  · intro samples sampleRate cfg w minS maxT pad hwdef hmindef hmaxdef hpaddef hw hquiet
    have hend : findSpeechEnd samples sampleRate cfg =
        findSpeechEndGo samples
          (cfg.silenceThreshold * cfg.endThresholdMultiplier)
          w minS maxT pad (samples.length + 1)
          ((samples.length : ℤ) - w) 0 0 := by
      rw [hwdef, hmindef, hmaxdef, hpaddef]; rfl
    have hchar := findSpeechEndGo_characterization samples
      (cfg.silenceThreshold * cfg.endThresholdMultiplier) w minS maxT pad hw
      (samples.length + 1) ((samples.length : ℤ) - w) 0 0
      (by omega) le_rfl (Or.inl rfl)
    rcases hchar with h | ⟨i', hi0, hile, _, hcap, ⟨prevM', hprev, htest⟩, _⟩
    · exact hend.trans h
    · exact absurd htest (by simp [hquiet i' hi0 hile hcap prevM' hprev])
  · intro audioBlob audioBuffer config hse
    have key : ∀ r, trimSilenceCore audioBlob audioBuffer (mergeConfig config) =
        Except.ok r → r.trimmedTrailingMs = 0 := by
      intro r h
      rw [trimSilenceCore_eq, hse] at h
      split at h
      · exact (Except.ok.inj h) ▸ rfl
      · split at h
        · exact (Except.ok.inj h) ▸ rfl
        · split at h
          · exact absurd h (by simp)
          · refine (Except.ok.inj h) ▸ ?_
            show max 0 (jsRound ((((monoSamples audioBuffer).length : ℤ) -
              ((monoSamples audioBuffer).length : ℤ) : ℤ) /
                (audioBuffer.sampleRate : ℚ) * 1000)) = 0
            rw [show ((((monoSamples audioBuffer).length : ℤ) -
              ((monoSamples audioBuffer).length : ℤ) : ℤ) : ℚ) = 0 by
                rw [sub_self, Int.cast_zero]]
            norm_num [jsRound]
    cases h : trimSilenceCore audioBlob audioBuffer (mergeConfig config) with
    | ok r =>
      have hr : trimSilence audioBlob (some audioBuffer) config = r := by
        simp [trimSilence, h]
      rw [hr]
      exact key r h
    | error e =>
      have hr : trimSilence audioBlob (some audioBuffer) config =
          ⟨audioBlob, 0, 0⟩ := by
        simp [trimSilence, h]
      rw [hr]

/-- Witness for C8 at a concrete input: 15 zero samples at rate 20 with
`trimTrailing` on and `maxTrailingTrim = 0.5` (10 samples): the all-silent
scan exceeds the cap and the boundary is the full length; `trimSilence`
reports zero trailing trim. -/
theorem findSpeechEnd_cap_exceeded_witness :
    findSpeechEnd (List.replicate 15 (0 : ℚ)) 20
        (mergeConfig { trimTrailing := some true, maxTrailingTrim := some (1 / 2) }) =
      ((List.replicate 15 (0 : ℚ)).length : ℤ) ∧
    (trimSilence ⟨[9], "audio/webm"⟩ (some ⟨[List.replicate 15 (0 : ℚ)], 20⟩)
        { trimTrailing := some true,
          maxTrailingTrim := some (1 / 2) }).trimmedTrailingMs = 0 :=
  ⟨findSpeechEnd_cap_exceeded.1 (List.replicate 15 (0 : ℚ)) 20
      (mergeConfig { trimTrailing := some true, maxTrailingTrim := some (1 / 2) })
      1 4 10 7 (by decide) (by decide) (by decide) (by decide) (by decide)
      (fun i' h0 hle hcap prevM' hprev => by
        rw [computeMeanSq_replicate_zero]
        norm_num [rmsGe, isDecrescendo, mergeConfig, DEFAULT_CONFIG]),
    findSpeechEnd_cap_exceeded.2 ⟨[9], "audio/webm"⟩
      ⟨[List.replicate 15 (0 : ℚ)], 20⟩
      { trimTrailing := some true, maxTrailingTrim := some (1 / 2) }
      (by decide)⟩

/-- C5: end detection runs against the lower threshold
`silenceThreshold * endThresholdMultiplier`; the decrescendo test accepts
exactly the windows whose RMS dropped by more than 20% below the previous
window's RMS while staying above 30% of that end threshold (stated via
`Real.sqrt` over the embedded mean squares, for nonnegative thresholds); and a
decrescendo window makes the scan step behave exactly as a speech window does:
it ends the scan — returning the padded boundary when the silence run reached
`minSilenceSamples` and the full length otherwise — instead of counting
toward the silence run. -/
theorem findSpeechEnd_decrescendo :
    (∀ (samples : List ℚ) (sampleRate : ℕ) (cfg : RequiredTrimConfig),
      findSpeechEnd samples sampleRate cfg =
        findSpeechEndGo samples
          (cfg.silenceThreshold * cfg.endThresholdMultiplier)
          ⌊(sampleRate : ℚ) * cfg.windowSize⌋
          ⌊(sampleRate : ℚ) * cfg.minSilenceDuration⌋
          ⌊(sampleRate : ℚ) * cfg.maxTrailingTrim⌋
          ⌊(sampleRate : ℚ) * cfg.trailingPadding⌋
          (samples.length + 1)
          ((samples.length : ℤ) - ⌊(sampleRate : ℚ) * cfg.windowSize⌋) 0 0) ∧
    (∀ prevM m endThr : ℚ, 0 ≤ prevM → 0 ≤ m → 0 ≤ endThr →
      (isDecrescendo prevM m endThr = true ↔
        (Real.sqrt (m : ℝ) < Real.sqrt (prevM : ℝ) * 0.8 ∧
          (endThr : ℝ) * 0.3 < Real.sqrt (m : ℝ)))) ∧
    (∀ (samples : List ℚ) (endThr : ℚ) (w minS maxT pad : ℤ) (fuel : ℕ)
      (i silent : ℤ) (prevM : ℚ),
      0 ≤ i → ¬maxT < silent →
      isDecrescendo prevM (computeMeanSq samples i w) endThr = true →
      findSpeechEndGo samples endThr w minS maxT pad (fuel + 1) i silent prevM =
        if minS ≤ silent then min (samples.length : ℤ) (i + w + pad)
        else (samples.length : ℤ)) := by
  refine ⟨fun samples sampleRate cfg => rfl, ?_, ?_⟩
  · intro prevM m endThr hp hm he
    constructor
    · intro h
      simp only [isDecrescendo, Bool.and_eq_true, decide_eq_true_eq] at h
      obtain ⟨⟨⟨hp0, hm0⟩, hlt⟩, hgt⟩ := h
      constructor
      · have h1 : (m : ℝ) < 16 / 25 * (prevM : ℝ) := by
          have h1q : (25 : ℝ) * (m : ℝ) < 16 * (prevM : ℝ) := by exact_mod_cast hlt
          linarith
        calc Real.sqrt (m : ℝ) < Real.sqrt (16 / 25 * (prevM : ℝ)) :=
              Real.sqrt_lt_sqrt (by exact_mod_cast hm) h1
          _ = Real.sqrt (16 / 25) * Real.sqrt (prevM : ℝ) :=
              Real.sqrt_mul (by norm_num) _
          _ = 4 / 5 * Real.sqrt (prevM : ℝ) := by
              rw [show (16 / 25 : ℝ) = (4 / 5) ^ 2 by norm_num,
                Real.sqrt_sq (by norm_num)]
          _ = Real.sqrt (prevM : ℝ) * 0.8 := by ring_nf
      · refine (Real.lt_sqrt (by positivity)).mpr ?_
        have h2q : (9 : ℝ) * (endThr : ℝ) ^ 2 < 100 * (m : ℝ) := by exact_mod_cast hgt
        nlinarith
    · rintro ⟨h1, h2⟩
      have hm0 : 0 < (m : ℝ) := by
        have hs : (0 : ℝ) < Real.sqrt (m : ℝ) :=
          lt_of_le_of_lt (by positivity) h2
        exact Real.sqrt_pos.mp hs
      have hp0 : 0 < (prevM : ℝ) := by
        have h08 : (0 : ℝ) < Real.sqrt (prevM : ℝ) * 0.8 :=
          lt_of_le_of_lt (Real.sqrt_nonneg _) h1
        have hs : (0 : ℝ) < Real.sqrt (prevM : ℝ) := by nlinarith
        exact Real.sqrt_pos.mp hs
      have hsqm := Real.sq_sqrt (le_of_lt hm0)
      have hsqp := Real.sq_sqrt (le_of_lt hp0)
      have hnm := Real.sqrt_nonneg (m : ℝ)
      have hnp := Real.sqrt_nonneg (prevM : ℝ)
      simp only [isDecrescendo, Bool.and_eq_true, decide_eq_true_eq]
      refine ⟨⟨⟨by exact_mod_cast hp0, by exact_mod_cast hm0⟩, ?_⟩, ?_⟩
      · have : (25 : ℝ) * (m : ℝ) < 16 * (prevM : ℝ) := by nlinarith
        exact_mod_cast this
      · have her : (0 : ℝ) ≤ (endThr : ℝ) := by exact_mod_cast he
        have : (9 : ℝ) * (endThr : ℝ) ^ 2 < 100 * (m : ℝ) := by nlinarith
        exact_mod_cast this
  · intro samples endThr w minS maxT pad fuel i silent prevM hi hcap hdecr
    unfold findSpeechEndGo
    dsimp only
    rw [if_pos hi, if_neg hcap, hdecr, Bool.or_true, if_pos rfl]

/-- Witness for C5 at concrete inputs: the window pair with mean squares
`(1, 1/2)` against end threshold `1/10` is a decrescendo, and a scan step on
`[1/2, 1/2]` hitting a decrescendo window ends the scan with the padded
boundary. -/
theorem findSpeechEnd_decrescendo_witness :
    (isDecrescendo 1 (1 / 2) (1 / 10) = true ↔
      (Real.sqrt ((1 / 2 : ℚ) : ℝ) < Real.sqrt ((1 : ℚ) : ℝ) * 0.8 ∧
        ((1 / 10 : ℚ) : ℝ) * 0.3 < Real.sqrt ((1 / 2 : ℚ) : ℝ))) ∧
    findSpeechEndGo [(1 / 2 : ℚ), 1 / 2] (1 / 10) 1 4 100 7 (3 + 1) 0 5 1 =
      (if (4 : ℤ) ≤ 5 then
        min (([(1 / 2 : ℚ), 1 / 2].length : ℤ)) (0 + 1 + 7)
      else (([(1 / 2 : ℚ), 1 / 2].length : ℤ))) :=
  ⟨findSpeechEnd_decrescendo.2.1 1 (1 / 2) (1 / 10) (by norm_num) (by norm_num)
      (by norm_num),
    findSpeechEnd_decrescendo.2.2 [(1 / 2 : ℚ), 1 / 2] (1 / 10) 1 4 100 7 3 0 5 1
      (by norm_num) (by norm_num) (by decide)⟩

/-- Unfolding of `List.isPrefixOf` to an existential suffix. -/
theorem isPrefixOf_iff_exists_suffix :
    ∀ (l m : List Char), l.isPrefixOf m = true ↔ ∃ t, m = l ++ t := by
  intro l
  induction l with
  | nil =>
    intro m
    simp [List.isPrefixOf]
  | cons a l ih =>
    intro m
    cases m with
    | nil => simp [List.isPrefixOf]
    | cons b m =>
      simp only [List.isPrefixOf, Bool.and_eq_true, beq_iff_eq, ih,
        List.cons_append, List.cons.injEq]
      constructor
      · rintro ⟨rfl, t, rfl⟩
        exact ⟨t, rfl, rfl⟩
      · rintro ⟨t, rfl, rfl⟩
        exact ⟨rfl, t, rfl⟩

/-- JS `includes` is substring containment. -/
theorem jsIncludes_iff_exists :
    ∀ (hay needle : List Char),
      jsIncludes hay needle = true ↔ ∃ s t, hay = s ++ needle ++ t := by
  intro hay
  induction hay with
  | nil =>
    intro needle
    simp only [jsIncludes, isPrefixOf_iff_exists_suffix]
    constructor
    · rintro ⟨t, ht⟩
      exact ⟨[], t, by simpa using ht⟩
    · rintro ⟨s, t, h⟩
      have hs : s = [] ∧ needle ++ t = [] := by
        constructor
        · cases s with
          | nil => rfl
          | cons x xs => simp at h
        · cases s with
          | nil => simpa using h.symm
          | cons x xs => simp at h
      exact ⟨t, by simp [hs.2]⟩
  | cons c tl ih =>
    intro needle
    simp only [jsIncludes, Bool.or_eq_true, isPrefixOf_iff_exists_suffix, ih]
    constructor
    · rintro (⟨t, ht⟩ | ⟨s, t, ht⟩)
      · exact ⟨[], t, by simpa using ht⟩
      · exact ⟨c :: s, t, by simp [ht]⟩
    · rintro ⟨s, t, ht⟩
      cases s with
      | nil =>
        exact Or.inl ⟨t, by simpa using ht⟩
      | cons s0 s' =>
        simp only [List.cons_append, List.cons.injEq] at ht
        exact Or.inr ⟨s', t, ht.2⟩

/-- The fuzzy-duplicate predicate is symmetric. -/
theorem areSimilarTexts_symm (a b : String) :
    areSimilarTexts a b = areSimilarTexts b a := by
  unfold areSimilarTexts
  dsimp only
  by_cases h : normalizeForComparison a = normalizeForComparison b
  · rw [if_pos h, if_pos h.symm]
  · rw [if_neg h,
      if_neg (fun hba : normalizeForComparison b = normalizeForComparison a =>
        h hba.symm)]
    rw [Bool.or_comm]
    by_cases hc : (jsIncludes (normalizeForComparison b).data
        (normalizeForComparison a).data ||
        jsIncludes (normalizeForComparison a).data
          (normalizeForComparison b).data) = true
    · rw [if_pos hc, if_pos hc]
      by_cases hl : (normalizeForComparison a).length <
          (normalizeForComparison b).length
      · have hl2 : ¬(normalizeForComparison b).length <
            (normalizeForComparison a).length := by omega
        simp only [if_pos hl, if_neg hl2]
      · by_cases hl2 : (normalizeForComparison b).length <
            (normalizeForComparison a).length
        · simp only [if_neg hl, if_pos hl2]
        · have hlen : (normalizeForComparison a).length =
              (normalizeForComparison b).length := by omega
          simp only [if_neg hl, if_neg hl2]
          rw [hlen]
    · rw [if_neg hc, if_neg hc]

/-- The rational ratio guard of `areSimilarTexts` in terms of natural-number
lengths: `shorter/longer > 0.8` iff `4 * longer < 5 * shorter` (with the JS
convention `0/0 = NaN > 0.8 = false` mirrored by `0/0 = 0` in `ℚ`). -/
theorem ratio_guard_iff (s l : ℕ) (hsl : s ≤ l) :
    ((s : ℚ) / (l : ℚ) > 0.8) ↔ 4 * l < 5 * s := by
  rcases Nat.eq_zero_or_pos l with hz | hpos
  · subst hz
    have hs : s = 0 := Nat.le_zero.mp hsl
    subst hs
    norm_num
  · have hl : (0 : ℚ) < (l : ℚ) := by exact_mod_cast hpos
    rw [gt_iff_lt, lt_div_iff₀ hl]
    constructor
    · intro h
      have : (4 : ℚ) * l < 5 * s := by linarith
      exact_mod_cast this
    · intro h
      have : (4 : ℚ) * l < 5 * s := by exact_mod_cast h
      linarith

/-- A finalized text that is a fuzzy duplicate of the stored last-final text
is skipped: the segment state is unchanged. -/
theorem processFinal_skip (st : RecState) (t : String)
    (h : areSimilarTexts (jsTrimStr t) st.lastFinalText = true) :
    processFinal st t = st := by
  unfold processFinal
  rw [if_pos h]

/-- C7 (amended): the fuzzy-duplicate predicate is exactly "equal after
normalization, or substring containment one way or the other with the shorter
normalized string longer than 80% of the longer one"; and appending a
finalized text `B` that is a fuzzy duplicate of the immediately preceding
finalized text `A` does not grow the segment buffer, *provided `A` itself
became the stored last-final text* (when `A` was instead discarded as a
duplicate of an older memo, `B` is compared against that older text and can
still be appended — see the counterexample). `A` and `B` are the
whitespace-trimmed texts as the handler stores them. -/
theorem fuzzyDuplicate_spec_amended :
    (∀ a b : String,
      areSimilarTexts a b = true ↔
        (normalizeForComparison a = normalizeForComparison b ∨
          ((∃ s t, (normalizeForComparison a).data =
              s ++ (normalizeForComparison b).data ++ t) ∨
            (∃ s t, (normalizeForComparison b).data =
              s ++ (normalizeForComparison a).data ++ t)) ∧
          4 * max (normalizeForComparison a).length
              (normalizeForComparison b).length <
            5 * min (normalizeForComparison a).length
              (normalizeForComparison b).length)) ∧
    (∀ (st : RecState) (A B : String),
      jsTrimStr A = A → jsTrimStr B = B →
      areSimilarTexts A B = true →
      (processFinal st A).lastFinalText = A →
      (processFinal (processFinal st A) B).finalSegments.length =
        (processFinal st A).finalSegments.length) := by
  constructor
  · intro a b
    unfold areSimilarTexts
    dsimp only
    by_cases h : normalizeForComparison a = normalizeForComparison b
    · simp [h]
    · rw [if_neg h]
      by_cases hc : (jsIncludes (normalizeForComparison a).data
          (normalizeForComparison b).data ||
          jsIncludes (normalizeForComparison b).data
            (normalizeForComparison a).data) = true
      · rw [if_pos hc]
        have hcont : (∃ s t, (normalizeForComparison a).data =
            s ++ (normalizeForComparison b).data ++ t) ∨
            (∃ s t, (normalizeForComparison b).data =
              s ++ (normalizeForComparison a).data ++ t) := by
          rcases Bool.or_eq_true_iff.mp hc with h1 | h2
          · exact Or.inl ((jsIncludes_iff_exists _ _).mp h1)
          · exact Or.inr ((jsIncludes_iff_exists _ _).mp h2)
        rw [decide_eq_true_eq]
        constructor
        · intro hratio
          refine Or.inr ⟨hcont, ?_⟩
          by_cases hl : (normalizeForComparison a).length <
              (normalizeForComparison b).length
          · rw [if_pos hl, if_pos hl] at hratio
            rw [max_eq_right (le_of_lt hl), min_eq_left (le_of_lt hl)]
            exact (ratio_guard_iff _ _ (le_of_lt hl)).mp hratio
          · rw [if_neg hl, if_neg hl] at hratio
            have hle : (normalizeForComparison b).length ≤
                (normalizeForComparison a).length := by omega
            rw [max_eq_left hle, min_eq_right hle]
            exact (ratio_guard_iff _ _ hle).mp hratio
        · rintro (heq | ⟨_, hratio⟩)
          · exact absurd heq h
          · by_cases hl : (normalizeForComparison a).length <
                (normalizeForComparison b).length
            · rw [if_pos hl, if_pos hl]
              rw [max_eq_right (le_of_lt hl), min_eq_left (le_of_lt hl)] at hratio
              exact (ratio_guard_iff _ _ (le_of_lt hl)).mpr hratio
            · rw [if_neg hl, if_neg hl]
              have hle : (normalizeForComparison b).length ≤
                  (normalizeForComparison a).length := by omega
              rw [max_eq_left hle, min_eq_right hle] at hratio
              exact (ratio_guard_iff _ _ hle).mpr hratio
      · rw [if_neg hc]
        simp only [Bool.false_eq_true, false_iff]
        rintro (heq | ⟨hcont, _⟩)
        · exact h heq
        · refine hc ?_
          rcases hcont with h1 | h2
          · exact Bool.or_eq_true_iff.mpr
              (Or.inl ((jsIncludes_iff_exists _ _).mpr h1))
          · exact Bool.or_eq_true_iff.mpr
              (Or.inr ((jsIncludes_iff_exists _ _).mpr h2))
  · intro st A B hA hB hdup hlast
    have hskip : areSimilarTexts (jsTrimStr B)
        ((processFinal st A).lastFinalText) = true := by
      rw [hB, hlast, areSimilarTexts_symm]
      exact hdup
    rw [processFinal_skip (processFinal st A) B hskip]

/-- Witness for C7 (amended) at concrete inputs: after `"hello"` is appended
(and stored as the last final text), the fuzzy duplicate `"Hello"` does not
grow the segment buffer. -/
theorem fuzzyDuplicate_spec_amended_witness :
    areSimilarTexts "hello" "Hello" = true ∧
    (processFinal ⟨[], "", [], 0⟩ "hello").lastFinalText = "hello" ∧
    (processFinal (processFinal ⟨[], "", [], 0⟩ "hello")
        "Hello").finalSegments.length =
      (processFinal ⟨[], "", [], 0⟩ "hello").finalSegments.length :=
  ⟨by decide, by decide,
    fuzzyDuplicate_spec_amended.2 ⟨[], "", [], 0⟩ "hello" "Hello"
      (by decide) (by decide) (by decide) (by decide)⟩

/-- Counterexample to C7 as stated: finalized texts arrive in the order
`"aaaaaaaaa"` (9 a's, appended, becomes the last-final memo), then
`A = "aaaaaaaaaaa"` (11 a's — a fuzzy duplicate of the 9-a memo, 9/11 > 80%,
so it is discarded and the memo stays at 9 a's), then `B = "aaaaaaaaaaaa"`
(12 a's). `fuzzyDuplicate(A, B)` holds (11/12 > 80%), yet `B` is compared
against the 9-a memo (9/12 ≤ 80%, not a duplicate) and appended: the segment
buffer grows from one segment to two. Appending a fuzzy duplicate `B` after
`A` therefore can increase the buffer's length when `A` itself was discarded. -/
theorem segmentBuffer_fuzzyDuplicate_counterexample :
    areSimilarTexts "aaaaaaaaaaa" "aaaaaaaaaaaa" = true ∧
    (processFinal (processFinal (processFinal ⟨[], "", [], 0⟩ "aaaaaaaaa")
        "aaaaaaaaaaa") "aaaaaaaaaaaa").finalSegments.length =
      (processFinal (processFinal ⟨[], "", [], 0⟩ "aaaaaaaaa")
        "aaaaaaaaaaa").finalSegments.length + 1 :=
  ⟨by decide, by decide⟩
